import Mathlib

/-!
Verification of the rate persistence core of the predbat home-battery system
(`apps/predbat/rate_store.py`): the freeze-past-slots merge performed by
`RateStore.save_rates`, the load / round-trip contract of
`RateStore.load_rates`, and the date-keyed document path computed by
`RateStore._get_filepath`.

Modelling conventions:
* Python strings are lists of characters; JSON objects are association lists
  with unique keys (Python dicts); rate values are rationals (the merge only
  copies values, it never computes with them).
* A raised Python exception (in this core: `ValueError` from `int(k)` on a
  non-numeric minute key) is modelled as the value `none` of an
  `Option`-typed result, so exception-freedom is `= some _`.
* The inherited `PersistentStore` primitives (`load`, `save`, `cleanup`) are
  not part of the excerpt; following the specification they are an external
  collaborator, modelled as an in-memory map from paths to documents.
-/

namespace RateStorePredbat

/-! ### Decimal printing and parsing (Python `str(i)` / `int(s)`) -/

/-- Is `c` one of the decimal digit characters. -/
def isDigitChar (c : Char) : Bool := decide ('0' ≤ c) && decide (c ≤ '9')

/-- Decimal digit character for `d` (meaningful for `d ≤ 9`). -/
def digitToChar (d : Nat) : Char := Char.ofNat (48 + d)

/-- Decimal digits of `n`, most significant first.  `fuel ≥ n` makes the
recursion structural, so the kernel can evaluate it. -/
def natToDigitsAux : Nat → Nat → List Char
  | 0, n => [digitToChar (n % 10)]
  | fuel + 1, n =>
    if n < 10 then [digitToChar n]
    else natToDigitsAux fuel (n / 10) ++ [digitToChar (n % 10)]

/-- Decimal representation of a natural number, as in Python `str(n)`. -/
def natToDigits (n : Nat) : List Char := natToDigitsAux n n

/-- Python `str(i)` for an integer: a minus sign for negatives, then the
decimal digits of the magnitude. -/
def intToStr (i : Int) : List Char :=
  if i < 0 then '-' :: natToDigits i.natAbs else natToDigits i.toNat

/-- Numeric value of a digit character, `none` for anything else. -/
def digitVal (c : Char) : Option Nat :=
  if isDigitChar c then some (c.toNat - 48) else none

/-- Accumulating decimal parse of a digit string. -/
def parseDigitsAux (acc : Nat) : List Char → Option Nat
  | [] => some acc
  | c :: cs =>
    match digitVal c with
    | some d => parseDigitsAux (acc * 10 + d) cs
    | none => none

/-- Parse of a nonempty all-digit string; `none` on the empty string or on
any non-digit character. -/
def parseNat : List Char → Option Nat
  | [] => none
  | cs => parseDigitsAux 0 cs

/-- Model of Python `int(s)` on a string: an optional sign followed by one
or more decimal digits; any other shape raises `ValueError`, modelled as
`none`.  (Surrounding whitespace and digit-group underscores, which CPython
also accepts, are not modelled; they never occur in keys written by this
store.) -/
def pyToInt (cs : List Char) : Option Int :=
  match cs with
  | [] => none
  | c :: rest =>
    if c = '-' then (parseNat rest).map (fun n => -(n : Int))
    else if c = '+' then (parseNat rest).map (fun n => (n : Int))
    else (parseNat (c :: rest)).map (fun n => (n : Int))

/-! ### Dates and the document path (`RateStore._get_filepath`) -/

/-- Calendar date component of a Python `datetime`. -/
structure PyDate where
  year : Nat
  month : Nat
  day : Nat
deriving DecidableEq

/-- A Python `datetime`: a calendar date plus a time of day (only the fields
`strftime` could consult are kept). -/
structure PyDateTime where
  date : PyDate
  hour : Nat
  minute : Nat
  second : Nat
deriving DecidableEq

/-- Left pad with `'0'` to width `w` (the zero padding of `strftime`). -/
def zfill (w : Nat) (cs : List Char) : List Char :=
  List.replicate (w - cs.length) '0' ++ cs

/-- `date.strftime("%Y_%m_%d")`: zero-padded four-digit year and two-digit
month and day, joined by underscores; depends only on the calendar date. -/
def strftimeYmd (dt : PyDateTime) : List Char :=
  zfill 4 (natToDigits dt.date.year) ++
    '_' :: (zfill 2 (natToDigits dt.date.month) ++
      '_' :: zfill 2 (natToDigits dt.date.day))

/-- `os.path.join` for the POSIX path shapes this store produces. -/
def osPathJoin (a b : List Char) : List Char :=
  if b.head? = some '/' then b
  else if a = [] then b
  else if a.getLast? = some '/' then a ++ b
  else a ++ '/' :: b

/-- `RateStore._get_filepath`: `os.path.join(self.save_dir, f"rates_{date_str}.json")`
with `date_str = date.strftime("%Y_%m_%d")`. -/
def getFilepath (save_dir : List Char) (date : PyDateTime) : List Char :=
  osPathJoin save_dir ("rates_".data ++ strftimeYmd date ++ ".json".data)

/-! ### Rate tables and the persisted document -/

/-- Rate values; the merge copies them and never computes with them. -/
abbrev Rate := ℚ

/-- An integer-keyed rate table (`{minute: rate}` with `int` keys). -/
abbrev IntTable := List (Int × Rate)

/-- A string-keyed rate table as persisted in the JSON document. -/
abbrev StrTable := List (List Char × Rate)

/-- Python dict lookup `t[k] if k in t else None` on an association list. -/
def dlookup {α β : Type _} [DecidableEq α] : List (α × β) → α → Option β
  | [], _ => none
  | p :: rest, key => if key = p.1 then some p.2 else dlookup rest key

/-- `{int(k): v for k, v in t.items()}` — `none` (a raised `ValueError`) if
any key fails to parse as an integer. -/
def decodeTable : StrTable → Option IntTable
  | [] => some []
  | p :: rest =>
    match pyToInt p.1 with
    | none => none
    | some m => (decodeTable rest).map (fun t => (m, p.2) :: t)

/-- The minute keys of a table (`set(t.keys())` up to order). -/
def tableKeys (t : IntTable) : List Int := t.map Prod.fst

/-- The persisted JSON document.  `load_rates`/`save_rates` read the two rate
sections with `.get(..., {})`, so each may be absent; the two metadata fields
are written but never read back. -/
structure RawDoc where
  rates_import : Option StrTable
  rates_export : Option StrTable
  last_updated : Option (List Char)
  frozen_before_minute : Option Int
deriving DecidableEq

/-- The default document used when no file exists:
`{"rates_import": {}, "rates_export": {}}`. -/
def emptyDoc : RawDoc :=
  { rates_import := some [], rates_export := some [],
    last_updated := none, frozen_before_minute := none }

/-! ### The Generic Store collaborator

The `PersistentStore` base class is not part of the excerpt; the spec treats
it as an external collaborator with `load(path) -> data|None`,
`save(path, data, backup) -> bool` and `cleanup(dir, glob, days) -> count`,
assumed correct and atomic on single files.  It is modelled as an in-memory
map from paths to documents. -/

/-- The filesystem state: one document per path. -/
abbrev Store := List (List Char × RawDoc)

/-- Modelled from the spec: the Generic Store's `load(path) -> document | None`
(returns the parsed document, or `None` when the path is absent). -/
def storeLoad (st : Store) (path : List Char) : Option RawDoc := dlookup st path

/-- Replace the document at `path`, or append it when absent. -/
def insertStore : Store → List Char → RawDoc → Store
  | [], path, doc => [(path, doc)]
  | e :: rest, path, doc =>
    if path = e.1 then (path, doc) :: rest else e :: insertStore rest path doc

/-- Modelled from the spec: the Generic Store's
`save(path, document, backup) -> bool`.  The in-memory model always succeeds;
the backup flag has no observable effect on the stored document. -/
def storeSave (st : Store) (path : List Char) (doc : RawDoc) (_backup : Bool) :
    Bool × Store :=
  (true, insertStore st path doc)

/-! ### `RateStore.save_rates` and `RateStore.load_rates` -/

/-- The rate store object; `save_dir` is the configured base directory. -/
structure RateStore where
  save_dir : List Char

/-- Lines 82–85 of `save_rates`: load the existing document, defaulting to
`{"rates_import": {}, "rates_export": {}}` when no file exists. -/
def existingOf (st : Store) (path : List Char) : RawDoc :=
  (storeLoad st path).getD emptyDoc

/-- `sorted(set(existing_import.keys()) | set(rate_import.keys()) |
set(existing_export.keys()) | set(rate_export.keys()))` (line 97). -/
def allMinutes (existing_import rate_import existing_export rate_export : IntTable) :
    List Int :=
  ((tableKeys existing_import ++ tableKeys rate_import ++
      tableKeys existing_export ++ tableKeys rate_export).dedup).insertionSort
    (fun a b => a ≤ b)

/-- One minute's entry of the freeze merge (lines 99–114), applied separately
to the import pair and to the export pair; the stored key is `str(minute)`.
For a frozen slot (`minute < freeze_before_minute`) the existing value wins
if present, else the newly supplied one; for a live slot only the newly
supplied value is used, and the minute is omitted when it has none. -/
def mergeEntry (existing new : IntTable) (freeze_before_minute minute : Int) :
    Option (List Char × Rate) :=
  if minute < freeze_before_minute then
    match dlookup existing minute with
    | some v => some (intToStr minute, v)
    | none =>
      match dlookup new minute with
      | some v => some (intToStr minute, v)
      | none => none
  else
    match dlookup new minute with
    | some v => some (intToStr minute, v)
    | none => none

/-- The per-minute value resolution of the freeze merge: a frozen slot keeps
the existing value when there is one, else takes the new one; a live slot
always takes the new one (possibly absent). -/
def mergeValue (existing new : IntTable) (freeze_before_minute minute : Int) :
    Option Rate :=
  if minute < freeze_before_minute then
    match dlookup existing minute with
    | some v => some v
    | none => dlookup new minute
  else dlookup new minute

/-- Integer-keyed image of the merged table built over a minute list. -/
def mergedTable (existing new : IntTable) (b : Int) (ms : List Int) : IntTable :=
  ms.filterMap (fun m => (mergeValue existing new b m).map (fun v => (m, v)))

/-- The document written by `save_rates` (lines 95–121), given the decoded
existing tables: both merged sections, `last_updated` set to the current
time, and `frozen_before_minute` set to this write's boundary. -/
def savedDoc (existing_import rate_import existing_export rate_export : IntTable)
    (freeze_before_minute : Int) (now : List Char) : RawDoc :=
  { rates_import := some ((allMinutes existing_import rate_import
        existing_export rate_export).filterMap
        (mergeEntry existing_import rate_import freeze_before_minute)),
    rates_export := some ((allMinutes existing_import rate_import
        existing_export rate_export).filterMap
        (mergeEntry existing_export rate_export freeze_before_minute)),
    last_updated := some now,
    frozen_before_minute := some freeze_before_minute }

/-- `RateStore.save_rates(date, rate_import, rate_export, freeze_before_minute)`
(lines 66–123).  `now` is the ambient `datetime.now().isoformat()` string,
made explicit; the overall `none` models the `ValueError` raised by `int(k)`
on a persisted minute key that is not an integer literal. -/
def save_rates (rs : RateStore) (st : Store) (now : List Char) (date : PyDateTime)
    (rate_import rate_export : IntTable) (freeze_before_minute : Int) :
    Option (Bool × Store) :=
  let filepath := getFilepath rs.save_dir date
  let existing_data := existingOf st filepath
  match decodeTable (existing_data.rates_import.getD []) with
  | none => none
  | some existing_import =>
    match decodeTable (existing_data.rates_export.getD []) with
    | none => none
    | some existing_export =>
      some (storeSave st filepath
        (savedDoc existing_import rate_import existing_export rate_export
          freeze_before_minute now) true)

/-- Result of `RateStore.load_rates`: the `(None, None)` sentinel for a date
never written, or the two integer-keyed tables. -/
inductive LoadResult where
  | noData
  | tables (rate_import rate_export : IntTable)
deriving DecidableEq

/-- `RateStore.load_rates(date)` (lines 125–145); the overall `none` models
the `ValueError` raised by `int(k)` on a non-integer minute key. -/
def load_rates (rs : RateStore) (st : Store) (date : PyDateTime) :
    Option LoadResult :=
  match storeLoad st (getFilepath rs.save_dir date) with
  | none => some LoadResult.noData
  | some data =>
    match decodeTable (data.rates_import.getD []) with
    | none => none
    | some ri =>
      match decodeTable (data.rates_export.getD []) with
      | none => none
      | some re => some (LoadResult.tables ri re)

/-- One `save_rates` call in a sequence of writes to the same date: the
ambient time string and the three per-write arguments. -/
structure WriteOp where
  now : List Char
  rate_import : IntTable
  rate_export : IntTable
  freeze_before_minute : Int

/-- Run a sequence of `save_rates` calls on the same date, threading the
store state; `none` when any call raises. -/
def runWrites (rs : RateStore) (date : PyDateTime) : Store → List WriteOp → Option Store
  | st, [] => some st
  | st, w :: ws =>
    match save_rates rs st w.now date w.rate_import w.rate_export
        w.freeze_before_minute with
    | none => none
    | some p => runWrites rs date p.2 ws

/-! ### Concrete scenarios used to instantiate the verified properties -/

/-- Extract the resulting store of a save that is known to succeed. -/
def afterSave (r : Option (Bool × Store)) : Store :=
  match r with
  | some p => p.2
  | none => []

/-- A store with the default directory configuration. -/
def wRateStore : RateStore := ⟨"predbat_save".data⟩

/-- A sample date. -/
def wDate : PyDateTime := ⟨⟨2026, 1, 2⟩, 0, 0, 0⟩

/-- The same calendar date at a different time of day. -/
def wDateEvening : PyDateTime := ⟨⟨2026, 1, 2⟩, 23, 59, 1⟩

/-- The document path for `wDate`. -/
def wPath : List Char := getFilepath wRateStore.save_dir wDate

/-- Store after a first save (`b = 60`) into an empty filesystem. -/
def wSt1 : Store :=
  afterSave (save_rates wRateStore [] "t1".data wDate
    [(0, 10), (60, 20)] [(0, 5)] 60)

/-- Store after a second save with different rates and the same boundary. -/
def wSt2 : Store :=
  afterSave (save_rates wRateStore wSt1 "t2".data wDate
    [(0, 99), (60, 30)] [(0, 77)] 60)

/-- Store after repeating the first save's arguments on top of `wSt1`. -/
def wSt1b : Store :=
  afterSave (save_rates wRateStore wSt1 "t3".data wDate
    [(0, 10), (60, 20)] [(0, 5)] 60)

/-- First write of the boundary-shrinking scenario: minute 0 is frozen
(boundary 60) with value 10. -/
def c1St1 : Store :=
  afterSave (save_rates wRateStore [] "t1".data wDate [(0, 10)] [] 60)

/-- Second write of that scenario, with the smaller boundary 0. -/
def c1St2 : Store :=
  afterSave (save_rates wRateStore c1St1 "t2".data wDate [(0, 99)] [] 0)

/-- A later write, with a boundary still above minute 0. -/
def c1Writes : List WriteOp :=
  [⟨"t2".data, [(0, 99), (60, 30)], [(0, 77)], 60⟩]

/-- A pre-existing document holding 5 for minute 0 in the import table. -/
def c4Doc : RawDoc :=
  { rates_import := some [("0".data, 5)], rates_export := some [],
    last_updated := none, frozen_before_minute := none }

/-- A store already holding `c4Doc` at `wDate`'s path. -/
def c4St0 : Store := [(wPath, c4Doc)]

/-- Result of saving 10 for the frozen minute 0 on top of `c4Doc`. -/
def c4St1 : Store :=
  afterSave (save_rates wRateStore c4St0 "t1".data wDate [(0, 10)] [] 60)

/-- Result of a save supplying frozen and live minutes on top of `c4Doc`. -/
def c4StW : Store :=
  afterSave (save_rates wRateStore c4St0 "w".data wDate
    [(0, 10), (90, 25)] [(30, 3)] 60)

/-- Result of a save used to observe key provenance on top of `c4Doc`. -/
def c9StW : Store :=
  afterSave (save_rates wRateStore c4St0 "w9".data wDate [(60, 20)] [(30, 3)] 60)

/-- A persisted document whose import section has a non-integer minute key. -/
def c5Doc : RawDoc :=
  { rates_import := some [("abc".data, 1)], rates_export := some [],
    last_updated := none, frozen_before_minute := none }

/-- A store already holding `c5Doc` at `wDate`'s path. -/
def c5St : Store := [(wPath, c5Doc)]

/-- A partial document with the import section missing entirely. -/
def c6Doc : RawDoc :=
  { rates_import := none, rates_export := some [("30".data, 7)],
    last_updated := none, frozen_before_minute := none }

/-- A store already holding `c6Doc` at `wDate`'s path. -/
def c6St : Store := [(wPath, c6Doc)]

/-- Two pre-existing documents agreeing on both rate sections but differing
in `last_updated` and `frozen_before_minute`. -/
def c10DocA : RawDoc :=
  { rates_import := some [("0".data, 5)], rates_export := some [("30".data, 2)],
    last_updated := some "a".data, frozen_before_minute := some 0 }

def c10DocB : RawDoc :=
  { rates_import := some [("0".data, 5)], rates_export := some [("30".data, 2)],
    last_updated := some "b".data, frozen_before_minute := some 500 }

def c10StA : Store := [(wPath, c10DocA)]

def c10StB : Store := [(wPath, c10DocB)]

def c10StA2 : Store :=
  afterSave (save_rates wRateStore c10StA "tA".data wDate [(0, 9), (60, 1)] [] 60)

def c10StB2 : Store :=
  afterSave (save_rates wRateStore c10StB "tB".data wDate [(0, 9), (60, 1)] [] 60)

/-! ### Parsing / printing round-trip lemmas -/

theorem digitVal_digitToChar : ∀ d < 10, digitVal (digitToChar d) = some d := by
  decide

theorem isDigitChar_digitToChar : ∀ d < 10, isDigitChar (digitToChar d) = true := by
  decide

theorem parseDigitsAux_append (acc : Nat) (xs ys : List Char) :
    parseDigitsAux acc (xs ++ ys) =
      match parseDigitsAux acc xs with
      | some a => parseDigitsAux a ys
      | none => none := by
  induction xs generalizing acc with
  | nil => simp [parseDigitsAux]
  | cons c cs ih =>
    simp only [List.cons_append, parseDigitsAux]
    cases digitVal c with
    | none => rfl
    | some d => exact ih (acc * 10 + d)

theorem parseDigitsAux_natToDigitsAux :
    ∀ fuel n acc, n ≤ fuel →
      parseDigitsAux acc (natToDigitsAux fuel n) =
        some (acc * 10 ^ (natToDigitsAux fuel n).length + n) := by
  intro fuel
  induction fuel with
  | zero =>
    intro n acc hn
    have h0 : n = 0 := Nat.le_zero.mp hn
    subst h0
    simp [natToDigitsAux, parseDigitsAux, digitVal_digitToChar 0 (by omega)]
  | succ fuel ih =>
    intro n acc hn
    by_cases h10 : n < 10
    · simp [natToDigitsAux, h10, parseDigitsAux, digitVal_digitToChar n h10]
    · have hdiv : n / 10 ≤ fuel := by
        have : n / 10 < n := Nat.div_lt_self (by omega) (by omega)
        omega
      simp only [natToDigitsAux, if_neg h10]
      rw [parseDigitsAux_append, ih (n / 10) acc hdiv]
      have hmod : n % 10 < 10 := Nat.mod_lt _ (by omega)
      simp only [parseDigitsAux, digitVal_digitToChar (n % 10) hmod,
        List.length_append, List.length_cons, List.length_nil]
      have : (acc * 10 ^ (natToDigitsAux fuel (n / 10)).length + n / 10) * 10 + n % 10 =
          acc * 10 ^ ((natToDigitsAux fuel (n / 10)).length + 1) + n := by
        have hdm := Nat.div_add_mod n 10
        ring_nf
        omega
      rw [this]

theorem natToDigitsAux_ne_nil (fuel n : Nat) : natToDigitsAux fuel n ≠ [] := by
  cases fuel with
  | zero => simp [natToDigitsAux]
  | succ fuel =>
    by_cases h : n < 10 <;> simp [natToDigitsAux, h]

theorem parseNat_natToDigits (n : Nat) : parseNat (natToDigits n) = some n := by
  have hne := natToDigitsAux_ne_nil n n
  unfold natToDigits
  cases hd : natToDigitsAux n n with
  | nil => exact absurd hd hne
  | cons c cs =>
    have := parseDigitsAux_natToDigitsAux n n 0 (Nat.le_refl n)
    rw [hd] at this
    simp [parseNat, this]

theorem natToDigitsAux_head :
    ∀ fuel n, ∃ c cs, natToDigitsAux fuel n = c :: cs ∧ isDigitChar c = true := by
  intro fuel
  induction fuel with
  | zero =>
    intro n
    exact ⟨digitToChar (n % 10), [], rfl,
      isDigitChar_digitToChar (n % 10) (Nat.mod_lt _ (by omega))⟩
  | succ fuel ih =>
    intro n
    by_cases h : n < 10
    · exact ⟨digitToChar n, [], by simp [natToDigitsAux, h],
        isDigitChar_digitToChar n h⟩
    · obtain ⟨c, cs, heq, hdig⟩ := ih (n / 10)
      exact ⟨c, cs ++ [digitToChar (n % 10)], by simp [natToDigitsAux, h, heq], hdig⟩

theorem isDigitChar_ne_sign {c : Char} (h : isDigitChar c = true) :
    c ≠ '-' ∧ c ≠ '+' := by
  constructor <;> rintro rfl <;> simp [isDigitChar] at h

/-- Key round trip: parsing the decimal string written for a minute key
recovers the minute. -/
theorem pyToInt_intToStr (i : Int) : pyToInt (intToStr i) = some i := by
  by_cases hneg : i < 0
  · simp only [intToStr, if_pos hneg, pyToInt, if_pos rfl]
    rw [parseNat_natToDigits]
    show some (-((i.natAbs : Nat) : Int)) = some i
    congr 1
    omega
  · simp only [intToStr, if_neg hneg]
    obtain ⟨c, cs, heq, hdig⟩ := natToDigitsAux_head i.toNat i.toNat
    obtain ⟨hm, hp⟩ := isDigitChar_ne_sign hdig
    unfold natToDigits
    rw [heq]
    simp only [pyToInt, if_neg hm, if_neg hp]
    have : parseNat (c :: cs) = some i.toNat := by
      have := parseNat_natToDigits i.toNat
      unfold natToDigits at this
      rwa [heq] at this
    rw [this]
    show some (((i.toNat : Nat) : Int)) = some i
    congr 1
    omega

/-! ### Lookup and store lemmas -/

theorem dlookup_insertStore (st : Store) (p : List Char) (d : RawDoc) (q : List Char) :
    dlookup (insertStore st p d) q = if q = p then some d else dlookup st q := by
  induction st with
  | nil => simp [insertStore, dlookup]
  | cons e rest ih =>
    unfold insertStore
    by_cases hpe : p = e.1
    · by_cases hq : q = p
      · simp [if_pos hpe, dlookup, hq]
      · have hqe : ¬q = e.1 := fun hc => hq (hc.trans hpe.symm)
        simp [if_pos hpe, dlookup, hq, hqe]
    · by_cases hqe : q = e.1
      · have hq : ¬q = p := fun hc => hpe (by rw [← hc]; exact hqe)
        have hep : ¬e.1 = p := fun hc => hpe hc.symm
        simp [if_neg hpe, dlookup, hqe, hq, hep]
      · simp [if_neg hpe, dlookup, hqe, ih]

theorem dlookup_eq_none_of_not_mem_keys {t : IntTable} {m : Int}
    (h : m ∉ tableKeys t) : dlookup t m = none := by
  induction t with
  | nil => rfl
  | cons p rest ih =>
    simp only [tableKeys, List.map_cons, List.mem_cons] at h
    push_neg at h
    simp [dlookup, h.1, ih (by simpa [tableKeys] using h.2)]

theorem mem_keys_of_dlookup_eq_some {t : IntTable} {m : Int} {v : Rate}
    (h : dlookup t m = some v) : m ∈ tableKeys t := by
  by_contra hmem
  rw [dlookup_eq_none_of_not_mem_keys hmem] at h
  exact Option.noConfusion h

/-! ### The merge, characterized per minute -/

theorem mergeEntry_eq (existing new : IntTable) (b m : Int) :
    mergeEntry existing new b m =
      (mergeValue existing new b m).map (fun v => (intToStr m, v)) := by
  unfold mergeEntry mergeValue
  by_cases hb : m < b
  · simp only [if_pos hb]
    cases dlookup existing m with
    | some v => rfl
    | none => cases dlookup new m <;> rfl
  · simp only [if_neg hb]
    cases dlookup new m <;> rfl

theorem decode_filterMap_mergeEntry (existing new : IntTable) (b : Int)
    (ms : List Int) :
    decodeTable (ms.filterMap (mergeEntry existing new b)) =
      some (mergedTable existing new b ms) := by
  induction ms with
  | nil => rfl
  | cons m rest ih =>
    rw [List.filterMap_cons, mergeEntry_eq]
    unfold mergedTable
    rw [List.filterMap_cons]
    cases hv : mergeValue existing new b m with
    | none =>
      simp only [Option.map_none']
      exact ih
    | some v =>
      simp only [Option.map_some']
      unfold decodeTable
      rw [pyToInt_intToStr, ih]
      rfl

theorem dlookup_mergedTable_of_nodup (existing new : IntTable) (b : Int)
    (ms : List Int) (hnd : ms.Nodup) (m : Int) :
    dlookup (mergedTable existing new b ms) m =
      if m ∈ ms then mergeValue existing new b m else none := by
  induction ms with
  | nil => simp [mergedTable, dlookup]
  | cons a rest ih =>
    have hand : a ∉ rest := (List.nodup_cons.mp hnd).1
    have hrest : rest.Nodup := (List.nodup_cons.mp hnd).2
    unfold mergedTable
    rw [List.filterMap_cons]
    cases hv : mergeValue existing new b a with
    | none =>
      have ih' := ih hrest
      unfold mergedTable at ih'
      simp only [Option.map_none']
      rw [ih']
      by_cases hm : m = a
      · subst hm
        simp [hand, hv]
      · simp [List.mem_cons, hm]
    | some v =>
      have ih' := ih hrest
      unfold mergedTable at ih'
      simp only [Option.map_some']
      by_cases hm : m = a
      · subst hm
        simp [dlookup, hv]
      · simp [dlookup, hm, ih', List.mem_cons]

theorem mem_allMinutes {a b c d : IntTable} {x : Int} :
    x ∈ allMinutes a b c d ↔
      x ∈ tableKeys a ∨ x ∈ tableKeys b ∨ x ∈ tableKeys c ∨ x ∈ tableKeys d := by
  unfold allMinutes
  rw [List.mem_insertionSort, List.mem_dedup]
  simp [List.mem_append, or_assoc]

theorem nodup_allMinutes (a b c d : IntTable) : (allMinutes a b c d).Nodup := by
  unfold allMinutes
  exact ((List.perm_insertionSort _ _).nodup_iff).mpr (List.nodup_dedup _)

/-- Per-minute view of a merged section built over the full minute union:
for every minute, the stored value is exactly `mergeValue`. -/
theorem dlookup_mergedTable (existing new : IntTable) (b : Int)
    (ms : List Int) (hnd : ms.Nodup)
    (hex : ∀ x ∈ tableKeys existing, x ∈ ms)
    (hnw : ∀ x ∈ tableKeys new, x ∈ ms) (m : Int) :
    dlookup (mergedTable existing new b ms) m = mergeValue existing new b m := by
  rw [dlookup_mergedTable_of_nodup existing new b ms hnd m]
  by_cases hm : m ∈ ms
  · simp [hm]
  · have hexn : dlookup existing m = none :=
      dlookup_eq_none_of_not_mem_keys (fun hc => hm (hex m hc))
    have hnwn : dlookup new m = none :=
      dlookup_eq_none_of_not_mem_keys (fun hc => hm (hnw m hc))
    simp only [if_neg hm]
    unfold mergeValue
    by_cases hb : m < b <;> simp [hb, hexn, hnwn]

/-! ### Inversion and composition lemmas for `save_rates` / `load_rates` -/

theorem save_rates_eq {rs : RateStore} {st : Store} {now : List Char}
    {date : PyDateTime} {ni ne : IntTable} {b : Int} {ei ee : IntTable}
    (hdi : decodeTable ((existingOf st (getFilepath rs.save_dir date)).rates_import.getD [])
      = some ei)
    (hde : decodeTable ((existingOf st (getFilepath rs.save_dir date)).rates_export.getD [])
      = some ee) :
    save_rates rs st now date ni ne b =
      some (true, insertStore st (getFilepath rs.save_dir date)
        (savedDoc ei ni ee ne b now)) := by
  simp only [save_rates, storeSave, hdi, hde]

theorem save_rates_some {rs : RateStore} {st : Store} {now : List Char}
    {date : PyDateTime} {ni ne : IntTable} {b : Int} {ok : Bool} {st' : Store}
    (h : save_rates rs st now date ni ne b = some (ok, st')) :
    ∃ ei ee,
      decodeTable ((existingOf st (getFilepath rs.save_dir date)).rates_import.getD [])
        = some ei ∧
      decodeTable ((existingOf st (getFilepath rs.save_dir date)).rates_export.getD [])
        = some ee ∧
      ok = true ∧
      st' = insertStore st (getFilepath rs.save_dir date) (savedDoc ei ni ee ne b now) := by
  cases hdi : decodeTable ((existingOf st (getFilepath rs.save_dir date)).rates_import.getD []) with
  | none =>
    simp only [save_rates, storeSave, hdi] at h
    exact Option.noConfusion h
  | some ei =>
    cases hde : decodeTable ((existingOf st (getFilepath rs.save_dir date)).rates_export.getD []) with
    | none =>
      simp only [save_rates, storeSave, hdi, hde] at h
      exact Option.noConfusion h
    | some ee =>
      simp only [save_rates, storeSave, hdi, hde, Option.some.injEq, Prod.mk.injEq] at h
      exact ⟨ei, ee, rfl, rfl, h.1.symm, h.2.symm⟩

theorem load_rates_tables {rs : RateStore} {st : Store} {date : PyDateTime}
    {ri re : IntTable}
    (h : load_rates rs st date = some (LoadResult.tables ri re)) :
    ∃ doc, storeLoad st (getFilepath rs.save_dir date) = some doc ∧
      decodeTable (doc.rates_import.getD []) = some ri ∧
      decodeTable (doc.rates_export.getD []) = some re := by
  cases hld : storeLoad st (getFilepath rs.save_dir date) with
  | none =>
    simp only [load_rates, hld] at h
    exact absurd h (by simp)
  | some doc =>
    cases hdi : decodeTable (doc.rates_import.getD []) with
    | none =>
      simp only [load_rates, hld, hdi] at h
      exact Option.noConfusion h
    | some ri' =>
      cases hde : decodeTable (doc.rates_export.getD []) with
      | none =>
        simp only [load_rates, hld, hdi, hde] at h
        exact Option.noConfusion h
      | some re' =>
        simp only [load_rates, hld, hdi, hde, Option.some.injEq,
          LoadResult.tables.injEq] at h
        exact ⟨doc, rfl, hdi.trans (congrArg some h.1), hde.trans (congrArg some h.2)⟩

/-- Loading a date right after `save_rates` wrote its merged document yields
exactly the two integer-keyed merged tables. -/
theorem load_rates_insert_saved (rs : RateStore) (st : Store) (date : PyDateTime)
    (ei ni ee ne : IntTable) (b : Int) (now : List Char) :
    load_rates rs
        (insertStore st (getFilepath rs.save_dir date) (savedDoc ei ni ee ne b now))
        date =
      some (LoadResult.tables
        (mergedTable ei ni b (allMinutes ei ni ee ne))
        (mergedTable ee ne b (allMinutes ei ni ee ne))) := by
  unfold load_rates storeLoad
  rw [dlookup_insertStore, if_pos rfl]
  show (match decodeTable ((savedDoc ei ni ee ne b now).rates_import.getD []) with
    | none => none
    | some ri =>
      match decodeTable ((savedDoc ei ni ee ne b now).rates_export.getD []) with
      | none => none
      | some re => some (LoadResult.tables ri re)) = _
  unfold savedDoc
  simp only [Option.getD_some]
  rw [decode_filterMap_mergeEntry, decode_filterMap_mergeEntry]

/-- Per-minute view of the import section written by `save_rates`. -/
theorem dlookup_saved_import (ei ni ee ne : IntTable) (b m : Int) :
    dlookup (mergedTable ei ni b (allMinutes ei ni ee ne)) m =
      mergeValue ei ni b m := by
  refine dlookup_mergedTable ei ni b _ (nodup_allMinutes ei ni ee ne) ?_ ?_ m
  · intro x hx; exact mem_allMinutes.mpr (Or.inl hx)
  · intro x hx; exact mem_allMinutes.mpr (Or.inr (Or.inl hx))

/-- Per-minute view of the export section written by `save_rates`. -/
theorem dlookup_saved_export (ei ni ee ne : IntTable) (b m : Int) :
    dlookup (mergedTable ee ne b (allMinutes ei ni ee ne)) m =
      mergeValue ee ne b m := by
  refine dlookup_mergedTable ee ne b _ (nodup_allMinutes ei ni ee ne) ?_ ?_ m
  · intro x hx; exact mem_allMinutes.mpr (Or.inr (Or.inr (Or.inl hx)))
  · intro x hx; exact mem_allMinutes.mpr (Or.inr (Or.inr (Or.inr hx)))

/-- Bridge between a successful load and the existing tables seen by the next
`save_rates` on the same date. -/
theorem existingOf_of_load_tables {rs : RateStore} {st : Store} {date : PyDateTime}
    {ri re : IntTable}
    (h : load_rates rs st date = some (LoadResult.tables ri re)) :
    decodeTable ((existingOf st (getFilepath rs.save_dir date)).rates_import.getD [])
        = some ri ∧
      decodeTable ((existingOf st (getFilepath rs.save_dir date)).rates_export.getD [])
        = some re := by
  obtain ⟨doc, hld, hdi, hde⟩ := load_rates_tables h
  unfold existingOf
  rw [hld]
  exact ⟨hdi, hde⟩

/-! ### Merge value case lemmas -/

theorem mergeValue_frozen_existing {existing new : IntTable} {b m : Int} {v : Rate}
    (hb : m < b) (h : dlookup existing m = some v) :
    mergeValue existing new b m = some v := by
  simp [mergeValue, hb, h]

theorem mergeValue_live {existing new : IntTable} {b m : Int} (hb : ¬m < b) :
    mergeValue existing new b m = dlookup new m := by
  simp [mergeValue, hb]

theorem mergeValue_some {existing new : IntTable} {b m : Int} {v : Rate}
    (h : mergeValue existing new b m = some v) :
    dlookup existing m = some v ∨ dlookup new m = some v := by
  unfold mergeValue at h
  by_cases hb : m < b
  · rw [if_pos hb] at h
    cases he : dlookup existing m with
    | some w =>
      simp only [he] at h
      exact Or.inl h
    | none =>
      simp only [he] at h
      exact Or.inr h
  · rw [if_neg hb] at h
    exact Or.inr h

/-- Re-merging on top of an already-merged table changes nothing per minute:
the stability driving idempotence of repeated identical saves. -/
theorem mergeValue_stable {E X n : IntTable} {b : Int}
    (hX : ∀ m, dlookup X m = mergeValue E n b m) (m : Int) :
    mergeValue X n b m = mergeValue E n b m := by
  by_cases hb : m < b
  · cases hE : dlookup E m with
    | some v =>
      have hx : dlookup X m = some v := by rw [hX m]; simp [mergeValue, hb, hE]
      simp [mergeValue, hb, hx, hE]
    | none =>
      have hx : dlookup X m = dlookup n m := by rw [hX m]; simp [mergeValue, hb, hE]
      cases hn : dlookup n m with
      | some w =>
        have hxs : dlookup X m = some w := hx.trans hn
        simp [mergeValue, hb, hxs, hE, hn]
      | none =>
        have hxs : dlookup X m = none := hx.trans hn
        simp [mergeValue, hb, hxs, hE, hn]
  · simp [mergeValue, hb]

/-- One `save_rates` whose freeze boundary lies above `m` preserves the
stored value for `m` in both tables. -/
theorem save_preserves_frozen {rs : RateStore} {st st' : Store} {now : List Char}
    {date : PyDateTime} {ni ne : IntTable} {b m : Int} {ri re : IntTable}
    (hsv : save_rates rs st now date ni ne b = some (true, st'))
    (hld : load_rates rs st date = some (LoadResult.tables ri re))
    (hm : m < b) :
    ∃ ri' re', load_rates rs st' date = some (LoadResult.tables ri' re') ∧
      (∀ v, dlookup ri m = some v → dlookup ri' m = some v) ∧
      (∀ v, dlookup re m = some v → dlookup re' m = some v) := by
  obtain ⟨hdi, hde⟩ := existingOf_of_load_tables hld
  obtain ⟨ei, ee, hdi', hde', _, hst⟩ := save_rates_some hsv
  have hei : ei = ri := Option.some.inj (hdi'.symm.trans hdi)
  have hee : ee = re := Option.some.inj (hde'.symm.trans hde)
  subst hst hei hee
  refine ⟨_, _, load_rates_insert_saved rs st date ei ni ee ne b now, ?_, ?_⟩
  · intro v hv
    rw [dlookup_saved_import]
    exact mergeValue_frozen_existing hm hv
  · intro v hv
    rw [dlookup_saved_export]
    exact mergeValue_frozen_existing hm hv

/-! ### Digit-count and padding lemmas for the filename format -/

theorem natToDigitsAux_length_le :
    ∀ fuel n j, n < 10 ^ (j + 1) → (natToDigitsAux fuel n).length ≤ j + 1 := by
  intro fuel
  induction fuel with
  | zero =>
    intro n j _
    simp [natToDigitsAux]
  | succ fuel ih =>
    intro n j hn
    by_cases h10 : n < 10
    · simp [natToDigitsAux, h10]
    · cases j with
      | zero =>
        exfalso
        have hn' : n < 10 := by simpa using hn
        omega
      | succ j' =>
        have hdiv : n / 10 < 10 ^ (j' + 1) := by
          rw [Nat.div_lt_iff_lt_mul (by omega)]
          calc n < 10 ^ (j' + 1 + 1) := hn
            _ = 10 ^ (j' + 1) * 10 := by rw [pow_succ]
        have := ih (n / 10) j' hdiv
        simp only [natToDigitsAux, if_neg h10, List.length_append,
          List.length_cons, List.length_nil]
        omega

theorem natToDigits_length_le {n j : Nat} (h : n < 10 ^ (j + 1)) :
    (natToDigits n).length ≤ j + 1 :=
  natToDigitsAux_length_le n n j h

theorem zfill_length {w : Nat} {cs : List Char} (h : cs.length ≤ w) :
    (zfill w cs).length = w := by
  simp only [zfill, List.length_append, List.length_replicate]
  omega

theorem storeLoad_insertStore_self (st : Store) (p : List Char) (doc : RawDoc) :
    storeLoad (insertStore st p doc) p = some doc := by
  unfold storeLoad
  rw [dlookup_insertStore, if_pos rfl]

/-! ### Claim C2 -/

/-- Claim C2 (confirmed): for all dates `d`, tables `T1`, `T2`, a single
boundary `b` and any minute `m < b`, if `save_rates(d, T1, ..., b)` is
followed by `save_rates(d, T2, ..., b)` and `m` has a stored value after the
first save, then `load_rates(d)` after the second save still returns the
first save's value for `m` (in both the import and the export table). -/
theorem claim2_freeze_invariant (rs : RateStore) (st0 st1 st2 : Store)
    (n1 n2 : List Char) (d : PyDateTime) (i1 e1 i2 e2 : IntTable) (b m : Int)
    (r1i r1e : IntTable)
    (_h1 : save_rates rs st0 n1 d i1 e1 b = some (true, st1))
    (h2 : save_rates rs st1 n2 d i2 e2 b = some (true, st2))
    (hm : m < b)
    (hld1 : load_rates rs st1 d = some (LoadResult.tables r1i r1e)) :
    ∃ r2i r2e, load_rates rs st2 d = some (LoadResult.tables r2i r2e) ∧
      (∀ v, dlookup r1i m = some v → dlookup r2i m = some v) ∧
      (∀ v, dlookup r1e m = some v → dlookup r2e m = some v) :=
  save_preserves_frozen h2 hld1 hm

/-- Witness for C2: the two-save scenario `wSt1`, `wSt2` at minute 0 with
boundary 60; the frozen import value 10 and export value 5 survive the
second save that supplied 99 and 77. -/
theorem claim2_freeze_invariant_witness :
    ∃ r2i r2e, load_rates wRateStore wSt2 wDate = some (LoadResult.tables r2i r2e) ∧
      (∀ v, dlookup ([(0, 10), (60, 20)] : IntTable) 0 = some v →
        dlookup r2i 0 = some v) ∧
      (∀ v, dlookup ([(0, 5)] : IntTable) 0 = some v →
        dlookup r2e 0 = some v) :=
  claim2_freeze_invariant wRateStore [] wSt1 wSt2 "t1".data "t2".data wDate
    [(0, 10), (60, 20)] [(0, 5)] [(0, 99), (60, 30)] [(0, 77)] 60 0
    [(0, 10), (60, 20)] [(0, 5)]
    (by decide) (by decide) (by decide) (by decide)

/-! ### Claim C3 -/

/-- Claim C3 (confirmed): for every save with boundary `b` and every minute
`m ≥ b`, the value stored for `m` after that save equals exactly the value
supplied for `m` in that call (independently for import and export), and `m`
is absent when not supplied — regardless of the prior store contents. -/
theorem claim3_live_overwrite (rs : RateStore) (st st2 : Store) (now : List Char)
    (d : PyDateTime) (ni ne : IntTable) (b m : Int)
    (hsv : save_rates rs st now d ni ne b = some (true, st2))
    (hm : b ≤ m) :
    ∃ ri re, load_rates rs st2 d = some (LoadResult.tables ri re) ∧
      dlookup ri m = dlookup ni m ∧ dlookup re m = dlookup ne m := by
  obtain ⟨ei, ee, hdi, hde, _, hst⟩ := save_rates_some hsv
  subst hst
  refine ⟨_, _, load_rates_insert_saved rs st d ei ni ee ne b now, ?_, ?_⟩
  · rw [dlookup_saved_import]
    exact mergeValue_live (not_lt.mpr hm)
  · rw [dlookup_saved_export]
    exact mergeValue_live (not_lt.mpr hm)

/-- Witness for C3: the second save of the scenario at live minute 60
(boundary 60) stores exactly the newly supplied values. -/
theorem claim3_live_overwrite_witness :
    ∃ ri re, load_rates wRateStore wSt2 wDate = some (LoadResult.tables ri re) ∧
      dlookup ri 60 = dlookup ([(0, 99), (60, 30)] : IntTable) 60 ∧
      dlookup re 60 = dlookup ([(0, 77)] : IntTable) 60 :=
  claim3_live_overwrite wRateStore wSt1 wSt2 "t2".data wDate
    [(0, 99), (60, 30)] [(0, 77)] 60 60 (by decide) (by decide)

/-! ### Claim C6 -/

/-- Claim C6 (confirmed): `load_rates` on a date never written (no document
at the derived path) returns the `(None, None)` sentinel; on a present
document a missing `rates_import` or `rates_export` section yields an empty
table for that section rather than a failure, the other section loading as
usual. -/
theorem claim6_sentinel_and_missing_sections (rs : RateStore) (st : Store)
    (d : PyDateTime) :
    (storeLoad st (getFilepath rs.save_dir d) = none →
      load_rates rs st d = some LoadResult.noData) ∧
    (∀ doc re, storeLoad st (getFilepath rs.save_dir d) = some doc →
      doc.rates_import = none →
      decodeTable (doc.rates_export.getD []) = some re →
      load_rates rs st d = some (LoadResult.tables [] re)) ∧
    (∀ doc ri, storeLoad st (getFilepath rs.save_dir d) = some doc →
      doc.rates_export = none →
      decodeTable (doc.rates_import.getD []) = some ri →
      load_rates rs st d = some (LoadResult.tables ri [])) := by
  refine ⟨fun h => by simp [load_rates, h], ?_, ?_⟩
  · intro doc re hld hmiss hde
    have hdi : decodeTable (doc.rates_import.getD []) = some [] := by
      rw [hmiss]; rfl
    simp only [load_rates, hld, hdi, hde]
  · intro doc ri hld hmiss hdi
    have hde : decodeTable (doc.rates_export.getD []) = some [] := by
      rw [hmiss]; rfl
    simp only [load_rates, hld, hdi, hde]

/-- Witness for C6: the empty filesystem yields the sentinel, and the
document `c6Doc` with a missing import section loads as an empty import
table plus its export entries. -/
theorem claim6_sentinel_and_missing_sections_witness :
    load_rates wRateStore [] wDate = some LoadResult.noData ∧
    load_rates wRateStore c6St wDate = some (LoadResult.tables [] [(30, 7)]) :=
  ⟨(claim6_sentinel_and_missing_sections wRateStore [] wDate).1 (by decide),
   (claim6_sentinel_and_missing_sections wRateStore c6St wDate).2.1 c6Doc
     [(30, 7)] (by decide) (by decide) (by decide)⟩

/-! ### Claim C1 -/

/-- Counterexample to claim C1 as stated: the first write commits minute 0
under boundary 60 (so 0 < 60 was frozen at commit time) with value 10, and
minute 0 is present in the stored document before the second write; yet the
second write — which supplies the smaller boundary 0, under which minute 0
is a live slot — changes the stored import value from 10 to 99.  The code
freezes against the *current* write's boundary only, so the claim's
quantification over writes with a smaller `freeze_before_minute` fails. -/
theorem claim1_frozen_forever_cex :
    load_rates wRateStore c1St1 wDate = some (LoadResult.tables [(0, 10)] []) ∧
    save_rates wRateStore c1St1 "t2".data wDate [(0, 99)] [] 0 =
      some (true, c1St2) ∧
    load_rates wRateStore c1St2 wDate = some (LoadResult.tables [(0, 99)] []) ∧
    ((0 : Int) < 60) ∧ ((10 : Rate) ≠ 99) := by
  decide

/-- Claim C1 (amended): once a value for minute `m` is stored, no subsequent
sequence of `save_rates` calls on the same date changes it, *provided every
subsequent write's `freeze_before_minute` is still greater than `m`* (i.e.
`m` is still a frozen slot at each later write); this holds in both tables.
The original claim also allowed later writes with a smaller boundary, which
the code overwrites (see the counterexample). -/
theorem claim1_frozen_immutable_amended (rs : RateStore) (d : PyDateTime)
    (m : Int) (ws : List WriteOp) (st st2 : Store) (ri re : IntTable)
    (hb : ∀ w ∈ ws, m < w.freeze_before_minute)
    (hld : load_rates rs st d = some (LoadResult.tables ri re))
    (hrun : runWrites rs d st ws = some st2) :
    ∃ ri' re', load_rates rs st2 d = some (LoadResult.tables ri' re') ∧
      (∀ v, dlookup ri m = some v → dlookup ri' m = some v) ∧
      (∀ v, dlookup re m = some v → dlookup re' m = some v) := by
  induction ws generalizing st ri re with
  | nil =>
    simp only [runWrites, Option.some.injEq] at hrun
    subst hrun
    exact ⟨ri, re, hld, fun _ hv => hv, fun _ hv => hv⟩
  | cons w ws ih =>
    cases hsv : save_rates rs st w.now d w.rate_import w.rate_export
        w.freeze_before_minute with
    | none => simp [runWrites, hsv] at hrun
    | some p =>
      obtain ⟨p1, p2⟩ := p
      obtain ⟨_, _, _, _, hok, _⟩ := save_rates_some hsv
      subst hok
      have hm : m < w.freeze_before_minute := hb w (List.mem_cons_self w ws)
      obtain ⟨ri1, re1, hld1, hpi, hpe⟩ := save_preserves_frozen hsv hld hm
      have hrun2 : runWrites rs d p2 ws = some st2 := by
        simpa only [runWrites, hsv] using hrun
      obtain ⟨ri2, re2, hld2, hpi2, hpe2⟩ :=
        ih p2 ri1 re1 (fun w' hw' => hb w' (List.mem_cons_of_mem _ hw')) hld1 hrun2
      exact ⟨ri2, re2, hld2,
        fun v hv => hpi2 v (hpi v hv), fun v hv => hpe2 v (hpe v hv)⟩

/-- Witness for the amended C1: after the first save of the scenario, one
further write with boundary 60 (> 0) leaves minute 0's values 10 and 5
untouched. -/
theorem claim1_frozen_immutable_amended_witness :
    ∃ ri' re', load_rates wRateStore wSt2 wDate = some (LoadResult.tables ri' re') ∧
      (∀ v, dlookup ([(0, 10), (60, 20)] : IntTable) 0 = some v →
        dlookup ri' 0 = some v) ∧
      (∀ v, dlookup ([(0, 5)] : IntTable) 0 = some v →
        dlookup re' 0 = some v) :=
  claim1_frozen_immutable_amended wRateStore wDate 0 c1Writes wSt1 wSt2
    [(0, 10), (60, 20)] [(0, 5)]
    (by decide) (by decide) (by decide)

/-! ### Claim C7 -/

/-- Claim C7 (confirmed): saving the same `(I, E, b)` twice in a row yields
the same `load_rates` result as saving it once — the two loaded table pairs
agree on every minute lookup (Python dict equality). -/
theorem claim7_idempotent_saves (rs : RateStore) (st st1 st2 : Store)
    (n1 n2 : List Char) (d : PyDateTime) (i e : IntTable) (b : Int)
    (h1 : save_rates rs st n1 d i e b = some (true, st1))
    (h2 : save_rates rs st1 n2 d i e b = some (true, st2)) :
    ∃ r1i r1e r2i r2e,
      load_rates rs st1 d = some (LoadResult.tables r1i r1e) ∧
      load_rates rs st2 d = some (LoadResult.tables r2i r2e) ∧
      (∀ m, dlookup r2i m = dlookup r1i m ∧ dlookup r2e m = dlookup r1e m) := by
  obtain ⟨ei, ee, hdi, hde, _, hst1⟩ := save_rates_some h1
  subst hst1
  have hld1 := load_rates_insert_saved rs st d ei i ee e b n1
  obtain ⟨ei2, ee2, hdi2, hde2, _, hst2⟩ := save_rates_some h2
  have hload1tab := existingOf_of_load_tables hld1
  have h1i : ei2 = mergedTable ei i b (allMinutes ei i ee e) :=
    Option.some.inj (hdi2.symm.trans hload1tab.1)
  have h1e : ee2 = mergedTable ee e b (allMinutes ei i ee e) :=
    Option.some.inj (hde2.symm.trans hload1tab.2)
  subst hst2 h1i h1e
  have hld2 := load_rates_insert_saved rs
    (insertStore st (getFilepath rs.save_dir d) (savedDoc ei i ee e b n1)) d
    (mergedTable ei i b (allMinutes ei i ee e)) i
    (mergedTable ee e b (allMinutes ei i ee e)) e b n2
  refine ⟨_, _, _, _, hld1, hld2, ?_⟩
  intro m
  constructor
  · rw [dlookup_saved_import, dlookup_saved_import]
    exact mergeValue_stable (fun m' => dlookup_saved_import ei i ee e b m') m
  · rw [dlookup_saved_export, dlookup_saved_export]
    exact mergeValue_stable (fun m' => dlookup_saved_export ei i ee e b m') m

/-- Witness for C7: repeating the first save of the scenario with identical
arguments leaves the loaded tables unchanged at every minute. -/
theorem claim7_idempotent_saves_witness :
    ∃ r1i r1e r2i r2e,
      load_rates wRateStore wSt1 wDate = some (LoadResult.tables r1i r1e) ∧
      load_rates wRateStore wSt1b wDate = some (LoadResult.tables r2i r2e) ∧
      (∀ m, dlookup r2i m = dlookup r1i m ∧ dlookup r2e m = dlookup r1e m) :=
  claim7_idempotent_saves wRateStore [] wSt1 wSt1b "t1".data "t3".data wDate
    [(0, 10), (60, 20)] [(0, 5)] 60 (by decide) (by decide)

/-! ### Claim C4 -/

/-- Counterexample to claim C4 as stated: with a document already holding 5
for frozen minute 0 (`c4Doc`), `save_rates` of `I = {0: 10}` with boundary 60
followed immediately by `load_rates` returns 5 for minute 0 — the previously
stored value, not `I`'s value — and `|5 - 10| > 0.01`.  The universally
quantified round trip fails whenever a frozen minute of `I` already has a
different stored value. -/
theorem claim4_roundtrip_cex :
    dlookup ([(0, 10)] : IntTable) 0 = some 10 ∧
    save_rates wRateStore c4St0 "t1".data wDate [(0, 10)] [] 60 =
      some (true, c4St1) ∧
    load_rates wRateStore c4St1 wDate = some (LoadResult.tables [(0, 5)] []) ∧
    ¬|(5 : Rate) - 10| ≤ 1 / 100 :=
  ⟨by decide, by decide, by decide, by norm_num⟩

/-- Claim C4 (amended): after `save_rates(d, I, E, b)`, an immediate
`load_rates(d)` returns, for every minute of `I` (resp. `E`) that is live
(`≥ b`) or not already present in the previously stored table, *exactly* the
supplied value — in particular within the 0.01 tolerance.  (When no document
existed for `d`, this covers every minute of `I` and `E`.)  Minutes of `I`
below `b` that already had a stored value keep that stored value instead,
as the counterexample shows. -/
theorem claim4_roundtrip_amended (rs : RateStore) (st st2 : Store)
    (now : List Char) (d : PyDateTime) (ni ne ei ee : IntTable) (b : Int)
    (hdi : decodeTable ((existingOf st (getFilepath rs.save_dir d)).rates_import.getD [])
      = some ei)
    (hde : decodeTable ((existingOf st (getFilepath rs.save_dir d)).rates_export.getD [])
      = some ee)
    (hsv : save_rates rs st now d ni ne b = some (true, st2)) :
    ∃ ri re, load_rates rs st2 d = some (LoadResult.tables ri re) ∧
      (∀ m v, dlookup ni m = some v → (b ≤ m ∨ dlookup ei m = none) →
        dlookup ri m = some v) ∧
      (∀ m v, dlookup ne m = some v → (b ≤ m ∨ dlookup ee m = none) →
        dlookup re m = some v) := by
  obtain ⟨ei2, ee2, hdi2, hde2, _, hst⟩ := save_rates_some hsv
  obtain rfl : ei2 = ei := Option.some.inj (hdi2.symm.trans hdi)
  obtain rfl : ee2 = ee := Option.some.inj (hde2.symm.trans hde)
  subst hst
  refine ⟨_, _, load_rates_insert_saved rs st d _ ni _ ne b now, ?_, ?_⟩
  · intro m v hv hside
    rw [dlookup_saved_import]
    cases hside with
    | inl hle => rw [mergeValue_live (not_lt.mpr hle)]; exact hv
    | inr hnone =>
      by_cases hb : m < b
      · simp [mergeValue, hb, hnone, hv]
      · simp [mergeValue, hb, hv]
  · intro m v hv hside
    rw [dlookup_saved_export]
    cases hside with
    | inl hle => rw [mergeValue_live (not_lt.mpr hle)]; exact hv
    | inr hnone =>
      by_cases hb : m < b
      · simp [mergeValue, hb, hnone, hv]
      · simp [mergeValue, hb, hv]

/-- Witness for the amended C4: on top of `c4Doc` (import `{0: 5}`), saving
`I = {0: 10, 90: 25}`, `E = {30: 3}` with boundary 60 round-trips every
supplied minute that is live or previously absent (90 in `I`; 30 in `E`). -/
theorem claim4_roundtrip_amended_witness :
    ∃ ri re, load_rates wRateStore c4StW wDate = some (LoadResult.tables ri re) ∧
      (∀ m v, dlookup ([(0, 10), (90, 25)] : IntTable) m = some v →
        ((60 : Int) ≤ m ∨ dlookup ([(0, 5)] : IntTable) m = none) →
        dlookup ri m = some v) ∧
      (∀ m v, dlookup ([(30, 3)] : IntTable) m = some v →
        ((60 : Int) ≤ m ∨ dlookup ([] : IntTable) m = none) →
        dlookup re m = some v) :=
  claim4_roundtrip_amended wRateStore c4St0 c4StW "w".data wDate
    [(0, 10), (90, 25)] [(30, 3)] [(0, 5)] [] 60
    (by decide) (by decide) (by decide)

/-! ### Claim C5 -/

/-- Counterexample to claim C5 as stated: on the persisted document `c5Doc`,
whose import section has the minute key `"abc"`, both `load_rates` and
`save_rates` hit `int("abc")`, which raises `ValueError` (modelled as the
result `none`) instead of reporting failure by value. -/
theorem claim5_exception_free_cex :
    load_rates wRateStore c5St wDate = none ∧
    save_rates wRateStore c5St "t".data wDate [] [] 0 = none := by
  decide

/-- Claim C5 (amended): `save_rates` and `load_rates` report failures by
value — `load_rates` returns the `(None, None)` sentinel when no document
exists — and raise no exception, *provided every minute key of the persisted
document parses as an integer*; a document with a non-parseable minute key
makes both operations raise `ValueError` (see the counterexample), exactly
the unguarded coercion the spec flags as an open question. -/
theorem claim5_value_based_failures_amended (rs : RateStore) (st : Store)
    (now : List Char) (d : PyDateTime) (ni ne : IntTable) (b : Int)
    (hdi : ∃ ti, decodeTable ((existingOf st (getFilepath rs.save_dir d)).rates_import.getD [])
      = some ti)
    (hde : ∃ te, decodeTable ((existingOf st (getFilepath rs.save_dir d)).rates_export.getD [])
      = some te) :
    (∃ r, save_rates rs st now d ni ne b = some r) ∧
    (∃ r, load_rates rs st d = some r) ∧
    (storeLoad st (getFilepath rs.save_dir d) = none →
      load_rates rs st d = some LoadResult.noData) := by
  obtain ⟨ti, hti⟩ := hdi
  obtain ⟨te, hte⟩ := hde
  refine ⟨⟨_, save_rates_eq hti hte⟩, ?_, fun h => by simp [load_rates, h]⟩
  cases hld : storeLoad st (getFilepath rs.save_dir d) with
  | none => exact ⟨LoadResult.noData, by simp [load_rates, hld]⟩
  | some doc =>
    have hdoc : existingOf st (getFilepath rs.save_dir d) = doc := by
      unfold existingOf
      rw [hld]
      rfl
    rw [hdoc] at hti hte
    exact ⟨LoadResult.tables ti te, by simp only [load_rates, hld, hti, hte]⟩

/-- Witness for the amended C5: on the store `wSt1` (whose document was
written by `save_rates` and so has integer minute keys) both operations
return values, and the empty store yields the sentinel. -/
theorem claim5_value_based_failures_amended_witness :
    ((∃ r, save_rates wRateStore wSt1 "t".data wDate [] [] 0 = some r) ∧
      (∃ r, load_rates wRateStore wSt1 wDate = some r) ∧
      (storeLoad wSt1 (getFilepath wRateStore.save_dir wDate) = none →
        load_rates wRateStore wSt1 wDate = some LoadResult.noData)) :=
  claim5_value_based_failures_amended wRateStore wSt1 "t".data wDate [] [] 0
    ⟨[(0, 10), (60, 20)], by decide⟩ ⟨[(0, 5)], by decide⟩

/-! ### Claim C8 -/

/-- Claim C8 (confirmed): the document path depends only on the calendar
date — any two datetimes on the same date give the same path (time of day is
ignored) — and the filename encodes the date under the configured base
directory as a four-digit year, two-digit month and two-digit day, separated
by underscores, between the `rates_` stem and the `.json` suffix. -/
theorem claim8_filepath_date_function (s : List Char) (d1 d2 : PyDateTime)
    (hdate : d1.date = d2.date) :
    getFilepath s d1 = getFilepath s d2 ∧
    (d1.date.year ≤ 9999 → d1.date.month ≤ 99 → d1.date.day ≤ 99 →
      ∃ ys ms ds,
        getFilepath s d1 =
          osPathJoin s ("rates_".data ++ (ys ++ '_' :: (ms ++ '_' :: ds)) ++ ".json".data) ∧
        ys.length = 4 ∧ ms.length = 2 ∧ ds.length = 2) := by
  constructor
  · unfold getFilepath strftimeYmd
    rw [hdate]
  · intro hy hm hd
    refine ⟨zfill 4 (natToDigits d1.date.year), zfill 2 (natToDigits d1.date.month),
      zfill 2 (natToDigits d1.date.day), rfl, ?_, ?_, ?_⟩
    · have h4 : (10 : Nat) ^ (3 + 1) = 10000 := by norm_num
      exact zfill_length (natToDigits_length_le (by omega))
    · have h2 : (10 : Nat) ^ (1 + 1) = 100 := by norm_num
      exact zfill_length (natToDigits_length_le (by omega))
    · have h2 : (10 : Nat) ^ (1 + 1) = 100 := by norm_num
      exact zfill_length (natToDigits_length_le (by omega))

/-- Witness for C8: midnight and 23:59:01 of 2026-01-02 map to the same
path, and the filename decomposes into padded 4/2/2 date fields. -/
theorem claim8_filepath_date_function_witness :
    getFilepath "predbat_save".data wDate = getFilepath "predbat_save".data wDateEvening ∧
    (wDate.date.year ≤ 9999 → wDate.date.month ≤ 99 → wDate.date.day ≤ 99 →
      ∃ ys ms ds,
        getFilepath "predbat_save".data wDate =
          osPathJoin "predbat_save".data
            ("rates_".data ++ (ys ++ '_' :: (ms ++ '_' :: ds)) ++ ".json".data) ∧
        ys.length = 4 ∧ ms.length = 2 ∧ ds.length = 2) :=
  claim8_filepath_date_function "predbat_save".data wDate wDateEvening rfl

/-! ### Claim C9 -/

/-- Claim C9 (confirmed): although the merge loop of `save_rates` iterates
over the union of the minute keys of all four input mappings, every minute
present in the stored import table after a save was a key of the existing or
of the supplied new import table, and symmetrically for
export — a minute present only in export inputs never leaks into the import
result, and vice versa. -/
theorem claim9_no_cross_table_leakage (rs : RateStore) (st st2 : Store)
    (now : List Char) (d : PyDateTime) (ni ne ei ee : IntTable) (b : Int)
    (ri re : IntTable)
    (hdi : decodeTable ((existingOf st (getFilepath rs.save_dir d)).rates_import.getD [])
      = some ei)
    (hde : decodeTable ((existingOf st (getFilepath rs.save_dir d)).rates_export.getD [])
      = some ee)
    (hsv : save_rates rs st now d ni ne b = some (true, st2))
    (hld : load_rates rs st2 d = some (LoadResult.tables ri re)) :
    ∀ m, (dlookup ri m ≠ none → dlookup ei m ≠ none ∨ dlookup ni m ≠ none) ∧
      (dlookup re m ≠ none → dlookup ee m ≠ none ∨ dlookup ne m ≠ none) := by
  obtain ⟨ei2, ee2, hdi2, hde2, _, hst⟩ := save_rates_some hsv
  obtain rfl : ei2 = ei := Option.some.inj (hdi2.symm.trans hdi)
  obtain rfl : ee2 = ee := Option.some.inj (hde2.symm.trans hde)
  subst hst
  have hld2 := load_rates_insert_saved rs st d ei2 ni ee2 ne b now
  have htab := Option.some.inj (hld.symm.trans hld2)
  obtain ⟨hri, hre⟩ := LoadResult.tables.injEq .. ▸ htab
  intro m
  constructor
  · intro hne
    rw [hri, dlookup_saved_import] at hne
    cases hv : mergeValue ei2 ni b m with
    | none => exact absurd hv hne
    | some v =>
      cases mergeValue_some hv with
      | inl h => exact Or.inl (by simp [h])
      | inr h => exact Or.inr (by simp [h])
  · intro hne
    rw [hre, dlookup_saved_export] at hne
    cases hv : mergeValue ee2 ne b m with
    | none => exact absurd hv hne
    | some v =>
      cases mergeValue_some hv with
      | inl h => exact Or.inl (by simp [h])
      | inr h => exact Or.inr (by simp [h])

/-- Witness for C9: saving import `{60: 20}` and export `{30: 3}` on top of
`c4Doc` (import `{0: 5}`); every stored import minute comes from the import
inputs and every stored export minute from the export inputs. -/
theorem claim9_no_cross_table_leakage_witness :
    (dlookup ([(0, 5), (60, 20)] : IntTable) 0 ≠ none →
      dlookup ([(0, 5)] : IntTable) 0 ≠ none ∨
        dlookup ([(60, 20)] : IntTable) 0 ≠ none) ∧
    (dlookup ([(30, 3)] : IntTable) 30 ≠ none →
      dlookup ([] : IntTable) 30 ≠ none ∨ dlookup ([(30, 3)] : IntTable) 30 ≠ none) :=
  ⟨(claim9_no_cross_table_leakage wRateStore c4St0 c9StW "w9".data wDate
      [(60, 20)] [(30, 3)] [(0, 5)] [] 60 [(0, 5), (60, 20)] [(30, 3)]
      (by decide) (by decide) (by decide) (by decide) 0).1,
   (claim9_no_cross_table_leakage wRateStore c4St0 c9StW "w9".data wDate
      [(60, 20)] [(30, 3)] [(0, 5)] [] 60 [(0, 5), (60, 20)] [(30, 3)]
      (by decide) (by decide) (by decide) (by decide) 30).2⟩

/-! ### Claim C10 -/

/-- Claim C10 (confirmed): the merge outcome is independent of the metadata
of the previously persisted document — for any two existing documents that
agree on their `rates_import` and `rates_export` sections but differ in
`frozen_before_minute` and/or `last_updated`, `save_rates` with the same
arguments stores identical rate tables; only the caller-supplied
`freeze_before_minute` of the current write determines what is frozen. -/
theorem claim10_metadata_noninterference (rs : RateStore) (d : PyDateTime)
    (nowa nowb : List Char) (sta stb : Store) (da db : RawDoc)
    (ni ne : IntTable) (b : Int) (sta2 stb2 : Store)
    (hla : storeLoad sta (getFilepath rs.save_dir d) = some da)
    (hlb : storeLoad stb (getFilepath rs.save_dir d) = some db)
    (hsi : da.rates_import = db.rates_import)
    (hse : da.rates_export = db.rates_export)
    (hsa : save_rates rs sta nowa d ni ne b = some (true, sta2))
    (hsb : save_rates rs stb nowb d ni ne b = some (true, stb2)) :
    ∃ da2 db2, storeLoad sta2 (getFilepath rs.save_dir d) = some da2 ∧
      storeLoad stb2 (getFilepath rs.save_dir d) = some db2 ∧
      da2.rates_import = db2.rates_import ∧ da2.rates_export = db2.rates_export := by
  obtain ⟨eia, eea, hdia, hdea, _, hsta⟩ := save_rates_some hsa
  obtain ⟨eib, eeb, hdib, hdeb, _, hstb⟩ := save_rates_some hsb
  have hea : existingOf sta (getFilepath rs.save_dir d) = da := by
    unfold existingOf
    rw [hla]
    rfl
  have heb : existingOf stb (getFilepath rs.save_dir d) = db := by
    unfold existingOf
    rw [hlb]
    rfl
  rw [hea] at hdia hdea
  rw [heb] at hdib hdeb
  rw [hsi] at hdia
  rw [hse] at hdea
  obtain rfl : eia = eib := Option.some.inj (hdia.symm.trans hdib)
  obtain rfl : eea = eeb := Option.some.inj (hdea.symm.trans hdeb)
  subst hsta hstb
  exact ⟨_, _, storeLoad_insertStore_self sta _ _,
    storeLoad_insertStore_self stb _ _, rfl, rfl⟩

/-- Witness for C10: the documents `c10DocA` and `c10DocB` agree on their
rate sections but differ in both metadata fields (boundaries 0 and 500);
saving the same arguments on both stores persists identical rate tables. -/
theorem claim10_metadata_noninterference_witness :
    ∃ da2 db2,
      storeLoad c10StA2 (getFilepath wRateStore.save_dir wDate) = some da2 ∧
      storeLoad c10StB2 (getFilepath wRateStore.save_dir wDate) = some db2 ∧
      da2.rates_import = db2.rates_import ∧ da2.rates_export = db2.rates_export :=
  claim10_metadata_noninterference wRateStore wDate "tA".data "tB".data
    c10StA c10StB c10DocA c10DocB [(0, 9), (60, 1)] [] 60 c10StA2 c10StB2
    (by decide) (by decide) (by decide) (by decide) (by decide) (by decide)

end RateStorePredbat
